import Mathlib

/-!
# winter: a C client for the Spring preloader daemon

A shallow embedding of `src/winter.c` and theorems about it.

Conventions of the embedding.

* A byte (`char`) is a natural number; a C string is the list of its bytes
  without the terminating NUL.  `ascii "abc"` is the byte list of a literal.
* `sprintf` into a `char[N]` array is defined only when the text and its
  terminating NUL fit in `N` bytes; otherwise the C program writes past the end
  of the array and its behaviour is undefined (`none`, `Step.undef`).
* System calls are recorded as a trace of `Event`s.  What the kernel answers
  (return values, bytes delivered by `read`, the content of the PID file, the
  indeterminate contents of uninitialised stack variables) is an input of the
  model, collected in `Env`.
* `write` records the bytes the program asks to write; the program never looks
  at the return value of `write`.  `malloc` and `calloc` are assumed to succeed.
-/

namespace WinterClient

/-! ## Bytes, constants and libc helpers -/

/-- Byte list of a string literal. -/
def ascii (s : String) : List Nat := s.toList.map Char.toNat

/-- Source line 13. -/
def SPRING_SOCKET : List Nat := ascii "spring"

/-- Source line 14. -/
def SPRING_PIDFILE : List Nat := ascii "spring.pid"

/-- Source line 15. -/
def SPRING_VERSION : List Nat := ascii "0.0.8"

/-- Size of the stack buffers used for commands, arguments and JSON text. -/
def BUFSIZE : Nat := 8192

/-- Size of the receive buffer of the version handshake. -/
def VERBUF : Nat := 80

/-- Decimal digits, in the C locale. -/
def isdigit (b : Nat) : Bool := decide (48 ≤ b ∧ b ≤ 57)

/-- Letters and digits, in the C locale (no `setlocale` call in the program). -/
def isalnum (b : Nat) : Bool :=
  decide ((48 ≤ b ∧ b ≤ 57) ∨ (65 ≤ b ∧ b ≤ 90) ∨ (97 ≤ b ∧ b ≤ 122))

/-- Printable characters that are neither letters, digits nor the space. -/
def ispunct (b : Nat) : Bool :=
  decide ((33 ≤ b ∧ b ≤ 47) ∨ (58 ≤ b ∧ b ≤ 64) ∨ (91 ≤ b ∧ b ≤ 96) ∨ (123 ≤ b ∧ b ≤ 126))

/-- White space of the C locale: space, and tab to carriage return. -/
def isspace (b : Nat) : Bool := decide (b = 32 ∨ (9 ≤ b ∧ b ≤ 13))

/-- Digits of `n`, most significant first, pushed in front of `acc`. -/
def decimalCore : Nat → Nat → List Nat → List Nat
  | 0, _, acc => acc
  | fuel + 1, n, acc =>
    if n < 10 then (48 + n) :: acc
    else decimalCore fuel (n / 10) ((48 + n % 10) :: acc)

/-- Text printed by the conversion `%d` for a non-negative `int`. -/
def sprintf_d (n : Nat) : List Nat := decimalCore (n + 1) n []

/-- Descriptor numbers of `unistd.h`, fixed by POSIX. -/
def STDIN_FILENO : Int := 0

/-- Descriptor number of the standard output. -/
def STDOUT_FILENO : Int := 1

/-- Descriptor number of the standard error. -/
def STDERR_FILENO : Int := 2

/-- Outcome of `sprintf` into a `char[cap]` array: the text, when it fits with its NUL. -/
def sprintf (cap : Nat) (text : List Nat) : Option (List Nat) :=
  if text.length < cap then some text else none

/-- Text `"%s"` of the element format strings. -/
def quoted (s : List Nat) : List Nat := [34] ++ s ++ [34]

/-! ## Traces -/

/-- System calls and library calls with an outside effect, as the program issues them. -/
inductive Event where
  | socket (ret : Int)
  | connect (fd : Int) (path : List Nat) (ret : Int)
  | read (fd : Int) (count : Nat)
  | socketpair (ret : Option (Int × Int))
  | sendmsg (sock : Int) (data : List Nat) (rights : Int) (ret : Int)
  | write (fd : Int) (data : List Nat)
  | close (fd : Int)
  | fopen (path : List Nat) (ok : Bool)
  | fclose
  | kill (pid : Int) (sig : Int)
  | stdout (text : String) (arg : Option Int)
  | stderr (text : String)
  | exit (status : Int)
  deriving DecidableEq

/-- Result of running a function of the program. -/
inductive Step (α : Type) where
  | ok (a : α) (tr : List Event)
  | exit (tr : List Event)
  | undef
  deriving DecidableEq

/-- Source lines 28-34; a `char*` field is `none` when it is `NULL`. -/
structure Winter where
  fd : Int
  application : Int
  client : Int
  socket_path : Option (List Nat)
  pidfile : Option (List Nat)
  deriving DecidableEq

/-- Answers of the operating system and indeterminate memory, as inputs of a run. -/
structure Env where
  /-- Value of `getenv ("SPRING_TMP_PATH")`, `none` for `NULL`. -/
  tmp_path : Option (List Nat)
  /-- Value of `sizeof (serv_addr.sun_path)`. -/
  sun_path_size : Nat
  /-- Return value of `socket`. -/
  socket : Int
  /-- Return value of `connect`. -/
  connect : Int
  /-- Contents of the 80 bytes of `buf` in `winter_verify_server_version` before `read`. -/
  stack : List Nat
  /-- Bytes that `read` delivers on the control socket. -/
  recv : List Nat
  /-- Descriptors stored by `socketpair`, `none` when it returns -1. -/
  socketpair : Option (Int × Int)
  /-- Return value of the k-th `sendmsg` call of the run. -/
  sendmsg : Nat → Int
  /-- Content of the PID file, `none` when `fopen` fails. -/
  pidfile : Option (List Nat)
  /-- Indeterminate value of the local `pid` of `winter_read_pid`. -/
  pid_garbage : Int
  /-- Outcome of `kill (pid, 0)`: `none` for success, `some e` for -1 with `errno = e`. -/
  kill : Int → Option Int
  /-- Value of the macro `ESRCH`. -/
  ESRCH : Int

/-- Descriptors closed with `close`, in order. -/
def closes : List Event → List Int
  | [] => []
  | Event.close fd :: tr => fd :: closes tr
  | _ :: tr => closes tr

/-- Byte blocks passed to `write` on descriptor `fd`, one per call, in order. -/
def writes (fd : Int) : List Event → List (List Nat)
  | [] => []
  | Event.write fd1 data :: tr => if fd1 = fd then data :: writes fd tr else writes fd tr
  | _ :: tr => writes fd tr

/-- Descriptors passed as rights by the `sendmsg` calls on socket `sock`, in order. -/
def rights (sock : Int) : List Event → List Int
  | [] => []
  | Event.sendmsg s _ r _ :: tr => if s = sock then r :: rights sock tr else rights sock tr
  | _ :: tr => rights sock tr

/-- Events that act on descriptor `fd`: writes to it and messages sent on it. -/
def onChannel (fd : Int) : List Event → List Event
  | [] => []
  | Event.write fd1 data :: tr =>
    if fd1 = fd then Event.write fd1 data :: onChannel fd tr else onChannel fd tr
  | Event.sendmsg s data r n :: tr =>
    if s = fd then Event.sendmsg s data r n :: onChannel fd tr else onChannel fd tr
  | _ :: tr => onChannel fd tr

/-- Whether the event is a `write`. -/
def Event.isWrite : Event → Bool
  | Event.write _ _ => true
  | _ => false

/-- Whether the event is a `sendmsg`. -/
def Event.isSendmsg : Event → Bool
  | Event.sendmsg _ _ _ _ => true
  | _ => false

/-- Trace of a step, empty for undefined behaviour. -/
def Step.trace {α : Type} : Step α → List Event
  | Step.ok _ tr => tr
  | Step.exit tr => tr
  | Step.undef => []

/-! ## Liveness probe (source lines 36-60, 79-89) -/

/-- Value of a run of decimal digits. -/
def digitsValue (ds : List Nat) : Nat := ds.foldl (fun a d => 10 * a + (d - 48)) 0

/-- Integer matched by the conversion `%d`: white space is skipped, then an optional sign
and at least one digit are read; `none` when the input does not match. -/
def scanf_d (s : List Nat) : Option Int :=
  let t := s.dropWhile isspace
  let body := match t with
    | 45 :: r => r
    | 43 :: r => r
    | r => r
  let ds := body.takeWhile isdigit
  if ds = [] then none
  else match t with
    | 45 :: _ => some (-(digitsValue ds : Int))
    | _ => some (digitsValue ds : Int)

/-- Source lines 36-49.  `content` is the PID file (`none`: `fopen` fails), `garbage` the
indeterminate value of `pid`; a number that does not fit an `int` is undefined behaviour. -/
def winter_read_pid (content : Option (List Nat)) (garbage : Int) : Option Int :=
  match content with
  | none => some 0
  | some c =>
    match scanf_d c with
    | none => some garbage
    | some v => if -2147483648 ≤ v ∧ v ≤ 2147483647 then some v else none

/-- Source lines 51-60. -/
def winter_is_server_running (content : Option (List Nat)) (garbage : Int)
    (kill : Int → Option Int) (ESRCH : Int) : Option Int :=
  match winter_read_pid content garbage with
  | none => none
  | some pid =>
    match kill pid with
    | some errno => if errno = ESRCH then some 0 else some pid
    | none => some pid

/-- Events of `winter_read_pid` followed by the probe. -/
def probe_events (w : Winter) (content : Option (List Nat)) (pid : Int) : List Event :=
  (match content with
    | none => [Event.fopen (w.pidfile.getD []) false]
    | some _ => [Event.fopen (w.pidfile.getD []) true, Event.fclose]) ++ [Event.kill pid 0]

/-- Source lines 79-89. -/
def winter_run_status (e : Env) (w : Winter) : Option (List Event) :=
  match winter_read_pid e.pidfile e.pid_garbage,
      winter_is_server_running e.pidfile e.pid_garbage e.kill e.ESRCH with
  | some p, some pid =>
    if pid = 0 then
      some (probe_events w e.pidfile p ++ [Event.stdout "Spring server is not running.\n" none])
    else
      some (probe_events w e.pidfile p ++
        [Event.stdout "Spring server is running, process id is %d.\n" (some pid)])
  | _, _ => none

/-! ## Descriptor handoff (source lines 91-141) -/

/-- Source lines 91-123: one `sendmsg` with a one-byte payload `0` and one `SCM_RIGHTS`
control message carrying `fd`; `n` is what `sendmsg` returns. -/
def send_fd (n : Int) (sock fd : Int) : Int × List Event :=
  if n ≠ 1 then
    (-1, [Event.sendmsg sock [0] fd n,
      Event.stderr "sendmsg() failed: %s (socket fd = %d)\n"])
  else (0, [Event.sendmsg sock [0] fd n])

/-- Source lines 125-141.  The result of `send_fd` is dropped. -/
def connect_to_application (e : Env) (w : Winter) : Step Winter :=
  match e.socketpair with
  | none =>
    Step.exit [Event.socketpair none, Event.stderr "Failed to open socketpair, existing.",
      Event.exit 0]
  | some (a, c) =>
    let w1 : Winter := { w with application := a, client := c }
    Step.ok w1 ([Event.socketpair (some (a, c))] ++ (send_fd (e.sendmsg 0) w1.fd w1.client).2)

/-! ## Frames (source lines 170-204) -/

/-- Text that lines 183-187 print into `command_json_array`. -/
def command_json_array (command : List Nat) (args : Option (List Nat)) : List Nat :=
  match args with
  | none => ascii "[\"" ++ command ++ ascii "\"]"
  | some a =>
    if a.length = 0 then ascii "[\"" ++ command ++ ascii "\"]"
    else ascii "[\"" ++ command ++ ascii "\", " ++ a ++ ascii "]"

/-- Text that line 189 prints into `args_json`. -/
def args_json (array : List Nat) : List Nat :=
  ascii "\x7b\"args\":" ++ array ++ ascii ",\"env\":\"ENV\"\x7d"

/-- Source lines 170-204.  The `%d` text of a length always fits `length[8192]`. -/
def send_server_args (e : Env) (w : Winter) (command : List Nat) (args : Option (List Nat)) :
    Step Winter :=
  match connect_to_application e w with
  | Step.exit tr => Step.exit tr
  | Step.undef => Step.undef
  | Step.ok w1 tr1 =>
    match sprintf BUFSIZE (command_json_array command args) with
    | none => Step.undef
    | some array =>
      match sprintf BUFSIZE (args_json array) with
      | none => Step.undef
      | some json =>
        Step.ok w1 (tr1 ++
          [Event.write w1.fd (sprintf_d json.length),
           Event.write w1.fd [10],
           Event.write w1.fd json] ++
          (send_fd (e.sendmsg 1) w1.application STDOUT_FILENO).2 ++
          (send_fd (e.sendmsg 2) w1.application STDERR_FILENO).2 ++
          (send_fd (e.sendmsg 3) w1.application STDIN_FILENO).2 ++
          [Event.write w1.application (sprintf_d array.length),
           Event.write w1.application [10],
           Event.write w1.application array])

/-! ## Argument list (source lines 206-253) -/

/-- Loop of lines 218-228: `ac` iterations remain, `av` is the index of `*av` in `argv`,
`buf` is the C string held by `args_buffer`. -/
def build_loop (argv : List (List Nat)) : Nat → Nat → Nat → List Nat → Option (List Nat)
  | 0, _, _, buf => some buf
  | ac + 1, av, offset, buf =>
    match argv.get? av with
    | none => none
    | some a =>
      let to_write := BUFSIZE - offset
      let text := if ac + 1 = 1 then quoted a else quoted a ++ [44]
      let written := text.length
      let buf1 := if to_write = 0 then buf else buf.take offset ++ text.take (to_write - 1)
      if to_write < written then some buf1
      else build_loop argv ac (av + 1) (offset + written) buf1

/-- Source lines 206-229.  With `argc ≤ modifier` the counter never reaches zero before
the loop reads past `argv`. -/
def build_comma_delimited_args (argc : Int) (argv : List (List Nat)) (modifier : Nat) :
    Option (List Nat) :=
  if argc - modifier - 1 < 0 then none
  else build_loop argv (argc - modifier - 1).toNat (modifier + 1) 0 []

/-- Source lines 231-253. -/
def call_rails_command (e : Env) (w : Winter) (argc : Int) (argv : List (List Nat)) :
    Step Winter :=
  if 3 ≤ argc ∧ argv.get? 1 = some (ascii "rails") then
    match argv.get? 2 with
    | none => Step.undef
    | some a2 =>
      match sprintf BUFSIZE (ascii "rails_" ++ a2), build_comma_delimited_args argc argv 2 with
      | some command, some args => send_server_args e w command (some args)
      | _, _ => Step.undef
  else
    match argv.get? 1 with
    | none => Step.undef
    | some a1 =>
      match sprintf BUFSIZE a1, build_comma_delimited_args argc argv 1 with
      | some command, some args => send_server_args e w command (some args)
      | _, _ => Step.undef

/-- Source lines 255-264. -/
def get_application_output (w : Winter) : List Event := [Event.read w.application BUFSIZE]

/-! ## Version handshake (source lines 313-330) -/

/-- Contents of `buf` after `read`: the bytes received, then what the array held before. -/
def version_buffer (stack recv : List Nat) : List Nat :=
  (recv.take VERBUF ++ stack.drop (recv.take VERBUF).length).take VERBUF

/-- Index of the first NUL of an array, `none` when the array holds none and `strlen`
runs past its end. -/
def strlen : List Nat → Option Nat
  | [] => none
  | b :: rest => if b = 0 then some 0 else (strlen rest).map (· + 1)

/-- Loop of lines 325-326: from index `e`, step back while `e > 0` and the byte at `e` is
neither alphanumeric nor punctuation. -/
def trim_loop (buf : List Nat) : Nat → Nat
  | 0 => 0
  | e + 1 =>
    if !isalnum (buf.getD (e + 1) 0) && !ispunct (buf.getD (e + 1) 0) then trim_loop buf e
    else e + 1

/-- Source lines 313-330. -/
def winter_verify_server_version (stack recv : List Nat) : Option Bool :=
  let buf := version_buffer stack recv
  match strlen buf with
  | none => none
  | some 0 => some false
  | some (len + 1) =>
    let e := trim_loop buf len
    some (decide (buf.take (e + 1) = SPRING_VERSION))

/-! ## Paths (source lines 339-375) -/

/-- Source lines 339-356. -/
def winter_get_pidfile_path (getenv : Option (List Nat)) : List Nat :=
  let path := match getenv with
    | none => ascii "./tmp/spring"
    | some p => p
  path ++ [47] ++ SPRING_PIDFILE

/-- Source lines 358-375. -/
def winter_get_socket_path (getenv : Option (List Nat)) : List Nat :=
  let path := match getenv with
    | none => ascii "./tmp/spring"
    | some p => p
  path ++ [47] ++ SPRING_SOCKET

/-! ## Session set-up and teardown (source lines 266-301, 332-337, 377-426) -/

/-- Source lines 414-426; `free` has no outside effect. -/
def winter_destroy (w : Winter) : List Event :=
  if w.fd > 0 then [Event.close w.fd] else []

/-- Source lines 332-337. -/
def error (w : Winter) (msg : String) : List Event :=
  winter_destroy w ++ [Event.stderr msg, Event.exit 0]

/-- Source lines 377-395: the descriptor returned, or the trace of the fatal error. -/
def winter_setup_socket (e : Env) (w : Winter) : Step Int :=
  if e.sun_path_size ≤ (w.socket_path.getD []).length then Step.undef
  else if e.socket < 0 then
    Step.exit ([Event.socket e.socket] ++ error w "Creating socket")
  else if e.connect < 0 then
    Step.exit ([Event.socket e.socket,
      Event.connect e.socket (w.socket_path.getD []) e.connect] ++ error w "Connecting")
  else
    Step.ok e.socket
      [Event.socket e.socket, Event.connect e.socket (w.socket_path.getD []) e.connect]

/-- Source lines 406-412. -/
def winter_init (e : Env) (w : Winter) : Step Winter :=
  let w1 : Winter := { w with socket_path := some (winter_get_socket_path e.tmp_path) }
  let w2 : Winter := { w1 with pidfile := some (winter_get_pidfile_path e.tmp_path) }
  match winter_setup_socket e w2 with
  | Step.undef => Step.undef
  | Step.exit tr => Step.exit tr
  | Step.ok fd tr => Step.ok { w2 with fd := fd } tr

/-- Source lines 397-404: `calloc` hands out a structure of zero bytes. -/
def create_winter (e : Env) : Step Winter :=
  winter_init e
    { fd := 0, application := 0, client := 0, socket_path := none, pidfile := none }

/-- Source lines 62-77; of the text only the first line is recorded. -/
def print_help_screen : List Event := [Event.stdout "Usage: winter COMMAND [ARGS]\n\n" none]

/-- Whether `argv[1]` is one of the forwarded commands (lines 285-289). -/
def forwarded (a1 : List Nat) : Bool :=
  decide (a1 = ascii "cucumber" ∨ a1 = ascii "rails" ∨ a1 = ascii "rake" ∨
    a1 = ascii "rspec" ∨ a1 = ascii "testunit")

/-- Source lines 266-301: the trace of a whole run, `none` for undefined behaviour. -/
def main (e : Env) (argv : List (List Nat)) : Option (List Event) :=
  if argv.length = 1 then some print_help_screen
  else
    match create_winter e with
    | Step.undef => none
    | Step.exit tr => some tr
    | Step.ok w tr0 =>
      match winter_verify_server_version e.stack e.recv with
      | none => none
      | some false =>
        some (tr0 ++ [Event.read w.fd VERBUF] ++ error w "Ruh roh, server version mismatch!")
      | some true =>
        let tr1 := tr0 ++ [Event.read w.fd VERBUF]
        match argv.get? 1 with
        | none => none
        | some a1 =>
          if a1 = ascii "status" then
            (winter_run_status e w).map (fun tr => tr1 ++ tr ++ winter_destroy w)
          else if a1 = ascii "help" then
            some (tr1 ++ print_help_screen ++ winter_destroy w)
          else if forwarded a1 = false then
            some (tr1 ++ print_help_screen ++ winter_destroy w)
          else
            match call_rails_command e w argv.length argv with
            | Step.undef => none
            | Step.exit tr => some (tr1 ++ tr)
            | Step.ok w2 tr =>
              some (tr1 ++ tr ++ get_application_output w2 ++ winter_destroy w2)

/-! ## Reference definitions that follow the wording of the specification -/

/-- Array literal of the specification for command `c` and arguments `as`: the elements
are double-quoted, `c` first, one separator before each argument. -/
def array_literal (c : List Nat) (as : List (List Nat)) : List Nat :=
  match as with
  | [] => ascii "[" ++ quoted c ++ ascii "]"
  | a :: rest =>
    ascii "[" ++ quoted c ++ ascii ", " ++ quoted a ++
      (rest.map (fun x => ascii "," ++ quoted x)).flatten ++ ascii "]"

/-- Trimming of the specification: trailing bytes that are neither alphanumeric nor
punctuation are removed. -/
def trim_trailing (s : List Nat) : List Nat :=
  s.rdropWhile (fun b => !isalnum b && !ispunct b)

/-- Base directory of the specification: the override when present and non-empty,
the default otherwise. -/
def spec_base (getenv : Option (List Nat)) : List Nat :=
  match getenv with
  | none => ascii "./tmp/spring"
  | some p => if p = [] then ascii "./tmp/spring" else p

/-- Order of the specification on a channel: no write comes after a descriptor message,
that is, the frame is complete before the first descriptor is sent. -/
def frame_first : List Event → Bool
  | [] => true
  | ev :: tr =>
    if ev.isSendmsg then tr.all (fun x => !x.isWrite) && frame_first tr else frame_first tr

/-- Order of the program on a channel: no descriptor message comes after a write. -/
def descriptors_first : List Event → Bool
  | [] => true
  | ev :: tr =>
    if ev.isWrite then tr.all (fun x => !x.isSendmsg) && descriptors_first tr
    else descriptors_first tr

/-- Text that the loop of `build_comma_delimited_args` prints for the arguments `as`:
every element in double quotes, a comma after each one but the last. -/
def loop_text : List (List Nat) → List Nat
  | [] => []
  | a :: rest => (if rest.length + 1 = 1 then quoted a else quoted a ++ [44]) ++ loop_text rest

/-- Quoted arguments with one comma between neighbours. -/
def comma_joined : List (List Nat) → List Nat
  | [] => []
  | a :: rest => quoted a ++ (rest.map (fun x => ascii "," ++ quoted x)).flatten

/-- Command name and argument list that `call_rails_command` takes from the command line
`prog cmd rest` (lines 240-250): `rails sub` becomes the command `rails_sub`. -/
def command_request (cmd : List Nat) (rest : List (List Nat)) : List Nat × List (List Nat) :=
  match rest with
  | [] => (cmd, [])
  | sub :: as => if cmd = ascii "rails" then (ascii "rails_" ++ sub, as) else (cmd, sub :: as)

/-- Bytes that the loop of lines 325-326 steps over. -/
def trimmed (b : Nat) : Bool := !isalnum b && !ispunct b

/-- Trailing `trimmed` bytes removed, the first byte always kept: what the loop of
`winter_verify_server_version` leaves of a string. -/
def keep_first : List Nat → List Nat
  | [] => []
  | h :: t => h :: t.rdropWhile trimmed

/-! ## Sample inputs -/

/-- An environment in which every system call succeeds and the daemon answers `0.0.8`. -/
def sample_env : Env :=
  { tmp_path := none, sun_path_size := 108, socket := 3, connect := 0,
    stack := List.replicate 80 0, recv := ascii "0.0.8\n", socketpair := some (4, 5),
    sendmsg := fun _ => 1, pidfile := some (ascii "4242\n"), pid_garbage := 0,
    kill := fun _ => none, ESRCH := 3 }

/-- As `sample_env`, but `socketpair` fails. -/
def no_pair_env : Env := { sample_env with socketpair := none }

/-- As `sample_env`, but the `sendmsg` that carries the client end of the pair fails. -/
def failing_handoff_env : Env :=
  { sample_env with sendmsg := fun k => if k = 0 then -1 else 1 }

/-- As `sample_env`, but the control socket is descriptor 0 (standard input was closed
when the client started). -/
def zero_fd_env : Env := { sample_env with socket := 0 }

/-- A probe that succeeds for every PID. -/
def kill_succeeds : Int → Option Int := fun _ => none

/-- A connected session whose control socket is descriptor 3. -/
def sample_winter : Winter :=
  { fd := 3, application := 0, client := 0,
    socket_path := some (winter_get_socket_path none),
    pidfile := some (winter_get_pidfile_path none) }

/-! ## Lemmas on decimal text and frames -/

theorem writes_append (fd : Int) (t1 t2 : List Event) :
    writes fd (t1 ++ t2) = writes fd t1 ++ writes fd t2 := by
  induction t1 with
  | nil => rfl
  | cons ev t ih =>
    cases ev <;> simp [writes, ih]
    split <;> simp

theorem rights_append (sock : Int) (t1 t2 : List Event) :
    rights sock (t1 ++ t2) = rights sock t1 ++ rights sock t2 := by
  induction t1 with
  | nil => rfl
  | cons ev t ih =>
    cases ev <;> simp [rights, ih]
    split <;> simp

theorem onChannel_append (fd : Int) (t1 t2 : List Event) :
    onChannel fd (t1 ++ t2) = onChannel fd t1 ++ onChannel fd t2 := by
  induction t1 with
  | nil => rfl
  | cons ev t ih => cases ev <;> simp [onChannel, ih] <;> split <;> simp

theorem closes_append (t1 t2 : List Event) :
    closes (t1 ++ t2) = closes t1 ++ closes t2 := by
  induction t1 with
  | nil => rfl
  | cons ev t ih => cases ev <;> simp [closes, ih]

theorem writes_send_fd (fd n sock r : Int) : writes fd (send_fd n sock r).2 = [] := by
  unfold send_fd
  split <;> simp [writes]

theorem closes_send_fd (n sock r : Int) : closes (send_fd n sock r).2 = [] := by
  unfold send_fd
  split <;> simp [closes]

theorem rights_send_fd (s n sock r : Int) :
    rights s (send_fd n sock r).2 = if sock = s then [r] else [] := by
  unfold send_fd
  split <;> simp [rights]

theorem onChannel_send_fd (fd n sock r : Int) :
    onChannel fd (send_fd n sock r).2 = if sock = fd then [Event.sendmsg sock [0] r n] else [] := by
  unfold send_fd
  split <;> simp [onChannel]

theorem args_json_length (array : List Nat) : (args_json array).length = array.length + 21 := by
  simp [args_json, ascii]

theorem command_json_array_length_none (command : List Nat) :
    (command_json_array command none).length = command.length + 4 := by
  simp [command_json_array, ascii]

theorem command_json_array_length_nil (command : List Nat) :
    (command_json_array command (some [])).length = command.length + 4 := by
  simp [command_json_array, ascii]

theorem command_json_array_length_cons (command : List Nat) (b : Nat) (bs : List Nat) :
    (command_json_array command (some (b :: bs))).length = command.length + bs.length + 7 := by
  simp [command_json_array, ascii]
  omega

/-- Trace of `send_server_args` once the pair exists and both texts fit their buffers. -/
theorem send_server_args_ok (e : Env) (w : Winter) (command : List Nat)
    (args : Option (List Nat)) (a c : Int) (hpair : e.socketpair = some (a, c))
    (hfit : (args_json (command_json_array command args)).length < BUFSIZE) :
    send_server_args e w command args =
      Step.ok { w with application := a, client := c }
        ([Event.socketpair (some (a, c))] ++ (send_fd (e.sendmsg 0) w.fd c).2 ++
          [Event.write w.fd (sprintf_d (args_json (command_json_array command args)).length),
           Event.write w.fd [10],
           Event.write w.fd (args_json (command_json_array command args))] ++
          (send_fd (e.sendmsg 1) a STDOUT_FILENO).2 ++
          (send_fd (e.sendmsg 2) a STDERR_FILENO).2 ++
          (send_fd (e.sendmsg 3) a STDIN_FILENO).2 ++
          [Event.write a (sprintf_d (command_json_array command args).length),
           Event.write a [10],
           Event.write a (command_json_array command args)]) := by
  have h1 : (command_json_array command args).length < BUFSIZE := by
    rw [args_json_length] at hfit
    omega
  simp [send_server_args, connect_to_application, hpair, sprintf, h1, hfit]

/-- Undefined behaviour of `send_server_args` when a text does not fit its buffer. -/
theorem send_server_args_undef (e : Env) (w : Winter) (command : List Nat)
    (args : Option (List Nat)) (a c : Int) (hpair : e.socketpair = some (a, c))
    (hbig : BUFSIZE ≤ (args_json (command_json_array command args)).length) :
    send_server_args e w command args = Step.undef := by
  simp only [send_server_args, connect_to_application, hpair, sprintf]
  split
  · rfl
  · rename_i array harr
    split at harr
    · cases harr
      simp [Nat.not_lt.mpr hbig]
    · cases harr

/-! ## Frames written by `send_server_args` -/

/-- For a command name of 8180 bytes the control payload has 8205 bytes: `sprintf` runs
past the end of `args_json[8192]` and the behaviour of `send_server_args` is undefined. -/
theorem send_server_args_overflow :
    send_server_args sample_env sample_winter (List.replicate 8180 97) none = Step.undef := by
  have hbig :
      BUFSIZE ≤ (args_json (command_json_array (List.replicate 8180 97) none)).length := by
    rw [args_json_length, command_json_array_length_none, List.length_replicate]
    decide
  exact send_server_args_undef sample_env sample_winter (List.replicate 8180 97) none 4 5 rfl hbig

/-! ## Descriptor relay -/

/-- C5 (amended).  In every command run in which the socket pair exists and the command
fits the buffers, the standard descriptors travel on the application channel, one `sendmsg` with one
descriptor each, exactly three messages, in the order stdout, stderr, stdin; the control
connection carries a single descriptor message, the one with the client end of the pair. -/
theorem send_server_args_relays_stdio (e : Env) (w : Winter) (command : List Nat)
    (args : Option (List Nat)) (a c : Int) (hpair : e.socketpair = some (a, c))
    (hne : w.fd ≠ a)
    (hfit : (args_json (command_json_array command args)).length < BUFSIZE) :
    ∃ w1 tr, send_server_args e w command args = Step.ok w1 tr ∧ w1.application = a ∧
      rights a tr = [STDOUT_FILENO, STDERR_FILENO, STDIN_FILENO] ∧
      rights w.fd tr = [c] ∧
      (onChannel a tr).filter Event.isSendmsg =
        [Event.sendmsg a [0] STDOUT_FILENO (e.sendmsg 1),
         Event.sendmsg a [0] STDERR_FILENO (e.sendmsg 2),
         Event.sendmsg a [0] STDIN_FILENO (e.sendmsg 3)] := by
  have hne2 : ¬ a = w.fd := fun h => hne h.symm
  refine ⟨_, _, send_server_args_ok e w command args a c hpair hfit, rfl, ?_, ?_, ?_⟩
  · simp [rights_append, rights_send_fd, rights, hne]
  · simp [rights_append, rights_send_fd, rights, hne2]
  · simp [onChannel_append, onChannel_send_fd, onChannel, hne, Event.isSendmsg]

/-- Instance of `send_server_args_relays_stdio`: the command `rspec` without arguments. -/
theorem send_server_args_relays_stdio_witness :
    ∃ w1 tr, send_server_args sample_env sample_winter (ascii "rspec") (some []) =
        Step.ok w1 tr ∧ w1.application = 4 ∧
      rights 4 tr = [STDOUT_FILENO, STDERR_FILENO, STDIN_FILENO] ∧
      rights sample_winter.fd tr = [5] ∧
      (onChannel 4 tr).filter Event.isSendmsg =
        [Event.sendmsg 4 [0] STDOUT_FILENO (sample_env.sendmsg 1),
         Event.sendmsg 4 [0] STDERR_FILENO (sample_env.sendmsg 2),
         Event.sendmsg 4 [0] STDIN_FILENO (sample_env.sendmsg 3)] :=
  send_server_args_relays_stdio sample_env sample_winter (ascii "rspec") (some []) 4 5 rfl
    (by decide) (by decide)

/-- C5 as stated fails: in the run of `winter rspec` in which `socketpair` fails, the
process exits at line 134 and no descriptor is transmitted at all, on any channel. -/
theorem send_server_args_relays_stdio_counterexample :
    (main no_pair_env [ascii "winter", ascii "rspec"]).map (List.filter Event.isSendmsg) =
      some [] ∧
    (send_server_args no_pair_env sample_winter (ascii "rspec") (some [])).trace.filter
      Event.isSendmsg = [] ∧
    ¬ (rights 4 (send_server_args no_pair_env sample_winter (ascii "rspec") (some [])).trace =
      [STDOUT_FILENO, STDERR_FILENO, STDIN_FILENO]) := by
  decide

/-- C6 (amended).  On the application channel the three descriptor messages come first, in
the order stdout, stderr, stdin, and the frame with the bare command array is written after
the third of them: no byte of the frame is written before the last descriptor is sent. -/
theorem send_server_args_descriptors_first (e : Env) (w : Winter) (command : List Nat)
    (args : Option (List Nat)) (a c : Int) (hpair : e.socketpair = some (a, c))
    (hne : w.fd ≠ a)
    (hfit : (args_json (command_json_array command args)).length < BUFSIZE) :
    ∃ w1 tr, send_server_args e w command args = Step.ok w1 tr ∧
      onChannel a tr =
        [Event.sendmsg a [0] STDOUT_FILENO (e.sendmsg 1),
         Event.sendmsg a [0] STDERR_FILENO (e.sendmsg 2),
         Event.sendmsg a [0] STDIN_FILENO (e.sendmsg 3),
         Event.write a (sprintf_d (command_json_array command args).length),
         Event.write a [10],
         Event.write a (command_json_array command args)] ∧
      descriptors_first (onChannel a tr) = true ∧
      frame_first (onChannel a tr) = false := by
  have hch : onChannel a
      ([Event.socketpair (some (a, c))] ++ (send_fd (e.sendmsg 0) w.fd c).2 ++
        [Event.write w.fd (sprintf_d (args_json (command_json_array command args)).length),
         Event.write w.fd [10],
         Event.write w.fd (args_json (command_json_array command args))] ++
        (send_fd (e.sendmsg 1) a STDOUT_FILENO).2 ++
        (send_fd (e.sendmsg 2) a STDERR_FILENO).2 ++
        (send_fd (e.sendmsg 3) a STDIN_FILENO).2 ++
        [Event.write a (sprintf_d (command_json_array command args).length),
         Event.write a [10],
         Event.write a (command_json_array command args)]) =
      [Event.sendmsg a [0] STDOUT_FILENO (e.sendmsg 1),
       Event.sendmsg a [0] STDERR_FILENO (e.sendmsg 2),
       Event.sendmsg a [0] STDIN_FILENO (e.sendmsg 3),
       Event.write a (sprintf_d (command_json_array command args).length),
       Event.write a [10],
       Event.write a (command_json_array command args)] := by
    simp [onChannel_append, onChannel_send_fd, onChannel, hne]
  refine ⟨_, _, send_server_args_ok e w command args a c hpair hfit, hch, ?_, ?_⟩
  · rw [hch]; simp [descriptors_first, Event.isWrite, Event.isSendmsg]
  · rw [hch]; simp [frame_first, Event.isWrite, Event.isSendmsg]

/-- Instance of `send_server_args_descriptors_first`: the command `rspec`. -/
theorem send_server_args_descriptors_first_witness :
    ∃ w1 tr, send_server_args sample_env sample_winter (ascii "rspec") (some []) =
        Step.ok w1 tr ∧
      onChannel 4 tr =
        [Event.sendmsg 4 [0] STDOUT_FILENO (sample_env.sendmsg 1),
         Event.sendmsg 4 [0] STDERR_FILENO (sample_env.sendmsg 2),
         Event.sendmsg 4 [0] STDIN_FILENO (sample_env.sendmsg 3),
         Event.write 4 (sprintf_d (command_json_array (ascii "rspec") (some [])).length),
         Event.write 4 [10],
         Event.write 4 (command_json_array (ascii "rspec") (some []))] ∧
      descriptors_first (onChannel 4 tr) = true ∧
      frame_first (onChannel 4 tr) = false :=
  send_server_args_descriptors_first sample_env sample_winter (ascii "rspec") (some []) 4 5 rfl
    (by decide) (by decide)

/-- C6 as stated fails: in the run of `rspec` the descriptors are sent on the application
channel before the frame is written. -/
theorem frame_first_counterexample :
    ¬ frame_first (onChannel 4
        (send_server_args sample_env sample_winter (ascii "rspec") (some [])).trace) = true := by
  decide

/-! ## Failures of the handoff -/

/-- C7 (amended).  When `socketpair` fails the process exits at once: the trace ends with
`exit (0)`, nothing is written and no descriptor is sent on any channel.  When the rights
transmission of the client end fails, `send_fd` prints a diagnostic and returns -1, the
caller drops that result, and the session goes on: both frames are written. -/
theorem handoff_failures (e : Env) (w : Winter) (command : List Nat)
    (args : Option (List Nat)) :
    (e.socketpair = none →
      ∃ tr, send_server_args e w command args = Step.exit tr ∧
        tr.getLast? = some (Event.exit 0) ∧
        (∀ fd, writes fd tr = []) ∧ (∀ s, rights s tr = [])) ∧
    (∀ a c, e.socketpair = some (a, c) → e.sendmsg 0 ≠ 1 → w.fd ≠ a →
      (args_json (command_json_array command args)).length < BUFSIZE →
      (send_fd (e.sendmsg 0) w.fd c).1 = -1 ∧
      ∃ w1 tr, send_server_args e w command args = Step.ok w1 tr ∧
        Event.stderr "sendmsg() failed: %s (socket fd = %d)\n" ∈ tr ∧
        writes w.fd tr =
          [sprintf_d (args_json (command_json_array command args)).length, [10],
            args_json (command_json_array command args)] ∧
        writes a tr =
          [sprintf_d (command_json_array command args).length, [10],
            command_json_array command args]) := by
  constructor
  · intro hnone
    refine ⟨[Event.socketpair none, Event.stderr "Failed to open socketpair, existing.",
      Event.exit 0], ?_, rfl, ?_, ?_⟩
    · simp [send_server_args, connect_to_application, hnone]
    · intro fd; simp [writes]
    · intro s; simp [rights]
  · intro a c hpair hfail hne hfit
    have hne2 : ¬ a = w.fd := fun h => hne h.symm
    refine ⟨by simp [send_fd, hfail], _, _,
      send_server_args_ok e w command args a c hpair hfit, ?_, ?_, ?_⟩
    · simp [send_fd, hfail]
    · simp [writes_append, writes_send_fd, writes, hne2]
    · simp [writes_append, writes_send_fd, writes, hne]

/-- Instance of `handoff_failures`: a failing `socketpair`, and a failing `sendmsg`. -/
theorem handoff_failures_witness :
    (∃ tr, send_server_args no_pair_env sample_winter (ascii "rspec") (some []) =
        Step.exit tr ∧
      tr.getLast? = some (Event.exit 0) ∧
      (∀ fd, writes fd tr = []) ∧ (∀ s, rights s tr = [])) ∧
    ((send_fd (failing_handoff_env.sendmsg 0) sample_winter.fd 5).1 = -1 ∧
      ∃ w1 tr, send_server_args failing_handoff_env sample_winter (ascii "rspec") (some []) =
          Step.ok w1 tr ∧
        Event.stderr "sendmsg() failed: %s (socket fd = %d)\n" ∈ tr ∧
        writes sample_winter.fd tr =
          [sprintf_d (args_json (command_json_array (ascii "rspec") (some []))).length, [10],
            args_json (command_json_array (ascii "rspec") (some []))] ∧
        writes 4 tr =
          [sprintf_d (command_json_array (ascii "rspec") (some [])).length, [10],
            command_json_array (ascii "rspec") (some [])]) :=
  ⟨(handoff_failures no_pair_env sample_winter (ascii "rspec") (some [])).1 rfl,
   (handoff_failures failing_handoff_env sample_winter (ascii "rspec") (some [])).2 4 5 rfl
     (by decide) (by decide) (by decide)⟩

/-- C7 as stated fails: the rights transmission of the client end fails (`sendmsg` returns
-1), and both frames are written all the same. -/
theorem handoff_failure_counterexample :
    failing_handoff_env.sendmsg 0 ≠ 1 ∧
    ¬ (writes 3 (send_server_args failing_handoff_env sample_winter (ascii "rspec")
          (some [])).trace = [] ∧
       writes 4 (send_server_args failing_handoff_env sample_winter (ascii "rspec")
          (some [])).trace = []) := by
  decide

/-! ## The argument list -/

theorem loop_text_eq (as : List (List Nat)) : loop_text as = comma_joined as := by
  induction as with
  | nil => rfl
  | cons a rest ih =>
    cases rest with
    | nil => simp [loop_text, comma_joined]
    | cons b r =>
      rw [loop_text, ih]
      simp [comma_joined, ascii]

theorem build_loop_ok (as : List (List Nat)) : ∀ (pre : List (List Nat)) (buf : List Nat),
    buf.length + (loop_text as).length < BUFSIZE →
    build_loop (pre ++ as) as.length pre.length buf.length buf = some (buf ++ loop_text as) := by
  induction as with
  | nil => intro pre buf _; simp [build_loop, loop_text]
  | cons a rest ih =>
    intro pre buf h
    have hlen : (loop_text (a :: rest)).length =
        (if rest.length + 1 = 1 then quoted a else quoted a ++ [44]).length +
          (loop_text rest).length := by
      simp [loop_text]
    have hget : (pre ++ a :: rest).get? pre.length = some a := by
      rw [List.get?_eq_getElem?, List.getElem?_append_right (le_refl _)]
      simp
    have hstep := ih (pre ++ [a])
      (buf ++ (if rest.length + 1 = 1 then quoted a else quoted a ++ [44]))
      (by rw [List.length_append]; omega)
    simp only [List.append_assoc, List.singleton_append, List.length_append,
      List.length_singleton] at hstep
    simp only [List.length_cons, build_loop, hget]
    have h1 : ¬ BUFSIZE - buf.length = 0 := by omega
    have h2 : ¬ BUFSIZE - buf.length <
        (if rest.length + 1 = 1 then quoted a else quoted a ++ [44]).length := by omega
    have h3 : List.take (BUFSIZE - buf.length - 1)
        (if rest.length + 1 = 1 then quoted a else quoted a ++ [44]) =
        (if rest.length + 1 = 1 then quoted a else quoted a ++ [44]) := by
      apply List.take_of_length_le
      omega
    simp only [h1, h2, h3, if_false, List.take_length]
    rw [hstep]
    simp [loop_text]

theorem comma_joined_length_cons (a : List Nat) (rest : List (List Nat)) :
    2 ≤ (comma_joined (a :: rest)).length := by
  simp [comma_joined, quoted]
  omega

theorem command_json_array_joined (c : List Nat) (as : List (List Nat)) :
    command_json_array c (some (comma_joined as)) = array_literal c as := by
  cases as with
  | nil => simp [command_json_array, comma_joined, array_literal, ascii, quoted]
  | cons a rest =>
    have h := comma_joined_length_cons a rest
    have h0 : ¬ (comma_joined (a :: rest)).length = 0 := by omega
    simp only [command_json_array, h0, if_false]
    simp [comma_joined, array_literal, ascii, quoted]

theorem array_literal_length (c : List Nat) (as : List (List Nat)) :
    c.length + (comma_joined as).length + 4 ≤ (array_literal c as).length := by
  cases as with
  | nil => simp [array_literal, comma_joined, ascii, quoted]
  | cons a rest => simp [array_literal, comma_joined, ascii, quoted]; omega

theorem build_comma_delimited_args_ok (argv pre as : List (List Nat)) (m : Nat)
    (hargv : argv = pre ++ as) (hm : m + 1 = pre.length)
    (h : (comma_joined as).length < BUFSIZE) :
    build_comma_delimited_args (argv.length : Nat) argv m = some (comma_joined as) := by
  subst hargv
  have hl := build_loop_ok as pre [] (by simpa [loop_text_eq] using h)
  have e1 : ¬ (((pre ++ as).length : Nat) : Int) - (m : Int) - 1 < 0 := by
    simp only [List.length_append]
    omega
  have e2 : ((((pre ++ as).length : Nat) : Int) - (m : Int) - 1).toNat = as.length := by
    simp only [List.length_append]
    omega
  simp only [build_comma_delimited_args, e1, e2, hm, if_false]
  simpa [loop_text_eq] using hl

/-- What `call_rails_command` passes to `send_server_args` when the command name and the
argument text fit their buffers. -/
theorem call_rails_command_eq (e : Env) (w : Winter) (prog cmd : List Nat)
    (rest : List (List Nat))
    (hc : (command_request cmd rest).1.length < BUFSIZE)
    (hj : (comma_joined (command_request cmd rest).2).length < BUFSIZE) :
    call_rails_command e w ((prog :: cmd :: rest).length : Nat) (prog :: cmd :: rest) =
      send_server_args e w (command_request cmd rest).1
        (some (comma_joined (command_request cmd rest).2)) := by
  cases rest with
  | nil =>
    have hb := build_comma_delimited_args_ok [prog, cmd] [prog, cmd] [] 1 rfl rfl
      (by simp [comma_joined, BUFSIZE])
    simp only [command_request] at hc ⊢
    have hcond : ¬ ((3 : Int) ≤ (([prog, cmd].length : Nat) : Int) ∧
        [prog, cmd].get? 1 = some (ascii "rails")) := by
      intro h
      have := h.1
      simp at this
    rw [call_rails_command, if_neg hcond, hb]
    simp [sprintf, hc]
  | cons sub as =>
    by_cases hr : cmd = ascii "rails"
    · simp only [command_request, hr, if_true] at hc hj ⊢
      have hb := build_comma_delimited_args_ok (prog :: ascii "rails" :: sub :: as)
        [prog, ascii "rails", sub] as 2 rfl rfl hj
      have hcond : (3 : Int) ≤ (((prog :: ascii "rails" :: sub :: as).length : Nat) : Int) ∧
          (prog :: ascii "rails" :: sub :: as).get? 1 = some (ascii "rails") := by
        constructor
        · simp only [List.length_cons]
          omega
        · rfl
      rw [call_rails_command, if_pos hcond, hb]
      have hs : sprintf BUFSIZE (ascii "rails_" ++ sub) = some (ascii "rails_" ++ sub) := by
        simp only [sprintf, hc, if_true]
      simp only [List.get?, hs]
    · simp only [command_request, hr, if_false] at hc hj ⊢
      have hb := build_comma_delimited_args_ok (prog :: cmd :: sub :: as)
        [prog, cmd] (sub :: as) 1 rfl rfl hj
      have hcond : ¬ ((3 : Int) ≤ (((prog :: cmd :: sub :: as).length : Nat) : Int) ∧
          (prog :: cmd :: sub :: as).get? 1 = some (ascii "rails")) := by
        intro h
        have := h.2
        simp at this
        exact hr this
      rw [call_rails_command, if_neg hcond, hb]
      simp [sprintf, hc]

/-- Trace of `call_rails_command` for a command line that fits the buffers. -/
theorem call_rails_command_ok (e : Env) (w : Winter) (prog cmd : List Nat)
    (rest : List (List Nat)) (a c : Int) (hpair : e.socketpair = some (a, c))
    (hfit : (args_json (array_literal (command_request cmd rest).1
      (command_request cmd rest).2)).length < BUFSIZE) :
    call_rails_command e w ((prog :: cmd :: rest).length : Nat) (prog :: cmd :: rest) =
      Step.ok { w with application := a, client := c }
        ([Event.socketpair (some (a, c))] ++ (send_fd (e.sendmsg 0) w.fd c).2 ++
          [Event.write w.fd (sprintf_d (args_json (array_literal (command_request cmd rest).1
              (command_request cmd rest).2)).length),
           Event.write w.fd [10],
           Event.write w.fd (args_json (array_literal (command_request cmd rest).1
              (command_request cmd rest).2))] ++
          (send_fd (e.sendmsg 1) a STDOUT_FILENO).2 ++
          (send_fd (e.sendmsg 2) a STDERR_FILENO).2 ++
          (send_fd (e.sendmsg 3) a STDIN_FILENO).2 ++
          [Event.write a (sprintf_d (array_literal (command_request cmd rest).1
              (command_request cmd rest).2).length),
           Event.write a [10],
           Event.write a (array_literal (command_request cmd rest).1
              (command_request cmd rest).2)]) := by
  have hlen := array_literal_length (command_request cmd rest).1 (command_request cmd rest).2
  have hfit2 := hfit
  rw [args_json_length] at hfit2
  rw [call_rails_command_eq e w prog cmd rest (by omega) (by omega),
    send_server_args_ok e w _ _ a c hpair (by rw [command_json_array_joined]; exact hfit),
    command_json_array_joined]

/-- Undefined behaviour of `call_rails_command` when the control payload does not fit. -/
theorem call_rails_command_undef (e : Env) (w : Winter) (prog cmd : List Nat)
    (rest : List (List Nat)) (a c : Int) (hpair : e.socketpair = some (a, c))
    (hc : (command_request cmd rest).1.length < BUFSIZE)
    (hj : (comma_joined (command_request cmd rest).2).length < BUFSIZE)
    (hbig : BUFSIZE ≤ (args_json (array_literal (command_request cmd rest).1
      (command_request cmd rest).2)).length) :
    call_rails_command e w ((prog :: cmd :: rest).length : Nat) (prog :: cmd :: rest) =
      Step.undef := by
  rw [call_rails_command_eq e w prog cmd rest hc hj]
  exact send_server_args_undef e w _ _ a c hpair (by rw [command_json_array_joined]; exact hbig)

/-! ## The command array and the control payload -/

/-- Bytes of the array literal for a command line `prog cmd rest` whose control payload
fits the 8192-byte buffers, with command name `c` and argument list `as` taken from it:
`[`, the quoted `c`, then for each element of `as` in order one separator (`, ` before the
first argument, `,` before each later one) and the quoted element, and `]`.  The elements
are copied as they are, without escaping. -/
theorem call_rails_command_array (e : Env) (w : Winter) (prog cmd : List Nat)
    (rest : List (List Nat)) (a c : Int) (hpair : e.socketpair = some (a, c))
    (hne : w.fd ≠ a)
    (hfit : (args_json (array_literal (command_request cmd rest).1
      (command_request cmd rest).2)).length < BUFSIZE) :
    ∃ w1 tr lit,
      call_rails_command e w ((prog :: cmd :: rest).length : Nat) (prog :: cmd :: rest) =
        Step.ok w1 tr ∧
      writes a tr = [sprintf_d lit.length, [10], lit] ∧
      lit = array_literal (command_request cmd rest).1 (command_request cmd rest).2 ∧
      lit = ascii "[" ++ quoted (command_request cmd rest).1 ++
        (match (command_request cmd rest).2 with
          | [] => []
          | x :: xs => ascii ", " ++ quoted x ++
              (xs.map (fun y => ascii "," ++ quoted y)).flatten) ++ ascii "]" := by
  refine ⟨_, _, _, call_rails_command_ok e w prog cmd rest a c hpair hfit, ?_, rfl, ?_⟩
  · simp [writes_append, writes_send_fd, writes, hne]
  · cases (command_request cmd rest).2 <;> simp [array_literal]

/-- Instance of `call_rails_command_array`: `winter rails generate model user`. -/
theorem call_rails_command_array_witness :
    ∃ w1 tr lit,
      call_rails_command sample_env sample_winter
          (([ascii "winter", ascii "rails", ascii "generate", ascii "model",
            ascii "user"].length : Nat) : Int)
          [ascii "winter", ascii "rails", ascii "generate", ascii "model", ascii "user"] =
        Step.ok w1 tr ∧
      writes 4 tr = [sprintf_d lit.length, [10], lit] ∧
      lit = array_literal
        (command_request (ascii "rails") [ascii "generate", ascii "model", ascii "user"]).1
        (command_request (ascii "rails") [ascii "generate", ascii "model", ascii "user"]).2 ∧
      lit = ascii "[" ++
        quoted (command_request (ascii "rails")
          [ascii "generate", ascii "model", ascii "user"]).1 ++
        (match (command_request (ascii "rails")
            [ascii "generate", ascii "model", ascii "user"]).2 with
          | [] => []
          | x :: xs => ascii ", " ++ quoted x ++
              (xs.map (fun y => ascii "," ++ quoted y)).flatten) ++ ascii "]" :=
  call_rails_command_array sample_env sample_winter (ascii "winter") (ascii "rails")
    [ascii "generate", ascii "model", ascii "user"] 4 5 rfl (by decide) (by decide)

/-- C2 at a failing input: for `winter rspec` followed by one argument of 8191 bytes the
quoted element has 8193 bytes and `snprintf` cuts it to 8191 bytes, so the element has
lost its closing quote; line 186 then prints the 8202 bytes of the literal around it with
an unchecked `sprintf` into `command_json_array[8192]`: the behaviour is undefined and no
literal with two quoted elements is written. -/
theorem call_rails_command_array_overflow :
    build_comma_delimited_args
        (([ascii "winter", ascii "rspec", List.replicate 8191 97].length : Nat) : Int)
        [ascii "winter", ascii "rspec", List.replicate 8191 97] 1 =
      some (34 :: List.replicate 8190 97) ∧
    (command_json_array (ascii "rspec") (some (34 :: List.replicate 8190 97))).length =
      8202 ∧
    call_rails_command sample_env sample_winter
        (([ascii "winter", ascii "rspec", List.replicate 8191 97].length : Nat) : Int)
        [ascii "winter", ascii "rspec", List.replicate 8191 97] = Step.undef := by
  have hq : (quoted (List.replicate 8191 97)).length = 8193 := by
    simp only [quoted, List.length_append, List.length_replicate, List.length_cons,
      List.length_nil]
  have htake : List.take 8191 (quoted (List.replicate 8191 97)) =
      34 :: List.replicate 8190 97 := by
    have h1 : List.replicate 8191 97 = List.replicate 8190 97 ++ [97] := by
      rw [← List.replicate_succ']
    simp only [quoted, List.singleton_append, List.cons_append, List.take_succ_cons,
      List.nil_append]
    rw [h1, List.append_assoc, List.take_left' (List.length_replicate 8190 97)]
  have hbuild : build_comma_delimited_args
      (([ascii "winter", ascii "rspec", List.replicate 8191 97].length : Nat) : Int)
      [ascii "winter", ascii "rspec", List.replicate 8191 97] 1 =
      some (34 :: List.replicate 8190 97) := by
    have e1 : ¬ (((([ascii "winter", ascii "rspec", List.replicate 8191 97].length : Nat) : Int))
        - ((1 : Nat) : Int) - 1 < 0) := by
      simp only [List.length_cons, List.length_nil]
      omega
    have e2 : (((([ascii "winter", ascii "rspec", List.replicate 8191 97].length : Nat) : Int))
        - ((1 : Nat) : Int) - 1).toNat = 1 := by
      simp only [List.length_cons, List.length_nil]
      omega
    simp only [build_comma_delimited_args, e1, e2, if_false]
    simp only [build_loop, List.get?, BUFSIZE, hq, if_true, Nat.sub_zero, List.take_zero,
      List.nil_append]
    rw [if_pos (by decide), if_neg (by decide)]
    exact congrArg some htake
  have hlit : (command_json_array (ascii "rspec")
      (some (34 :: List.replicate 8190 97))).length = 8202 := by
    rw [command_json_array_length_cons, List.length_replicate]
    decide
  refine ⟨hbuild, hlit, ?_⟩
  have hcond : ¬ ((3 : Int) ≤
      (([ascii "winter", ascii "rspec", List.replicate 8191 97].length : Nat) : Int) ∧
      [ascii "winter", ascii "rspec", List.replicate 8191 97].get? 1 =
        some (ascii "rails")) := by
    intro h
    have h2 := h.2
    revert h2
    simp only [List.get?, Option.some.injEq]
    decide
  have hs : sprintf BUFSIZE (ascii "rspec") = some (ascii "rspec") := by decide
  have hbig : BUFSIZE ≤ (args_json (command_json_array (ascii "rspec")
      (some (34 :: List.replicate 8190 97)))).length := by
    rw [args_json_length, command_json_array_length_cons, List.length_replicate]
    decide
  rw [call_rails_command, if_neg hcond, hbuild]
  simp only [List.get?, hs]
  exact send_server_args_undef sample_env sample_winter _ _ 4 5 rfl hbig

/-- For every forwarded command line whose control payload fits the 8192-byte buffers,
the payload written on the control connection is `{"args":`, then byte
for byte the array literal that is written as the application-channel payload, then
`,"env":"ENV"}`.  For `winter rspec` the control connection receives `30`, a newline and
the 30 bytes `{"args":["rspec"],"env":"ENV"}`. -/
theorem control_payload (e : Env) (w : Winter) (prog cmd : List Nat)
    (rest : List (List Nat)) (a c : Int) (hpair : e.socketpair = some (a, c))
    (hne : w.fd ≠ a) :
    ((args_json (array_literal (command_request cmd rest).1
        (command_request cmd rest).2)).length < BUFSIZE →
      ∃ w1 tr arr,
        call_rails_command e w ((prog :: cmd :: rest).length : Nat) (prog :: cmd :: rest) =
          Step.ok w1 tr ∧
        writes a tr = [sprintf_d arr.length, [10], arr] ∧
        writes w.fd tr =
          [sprintf_d (ascii "\x7b\"args\":" ++ arr ++ ascii ",\"env\":\"ENV\"\x7d").length,
            [10], ascii "\x7b\"args\":" ++ arr ++ ascii ",\"env\":\"ENV\"\x7d"]) ∧
    (cmd = ascii "rspec" → rest = [] →
      writes w.fd (call_rails_command e w ((prog :: cmd :: rest).length : Nat)
          (prog :: cmd :: rest)).trace =
        [ascii "30", [10], ascii "\x7b\"args\":[\"rspec\"],\"env\":\"ENV\"\x7d"] ∧
      (ascii "\x7b\"args\":[\"rspec\"],\"env\":\"ENV\"\x7d").length = 30) := by
  have hne2 : ¬ a = w.fd := fun h => hne h.symm
  constructor
  · intro hfit
    refine ⟨_, _, array_literal (command_request cmd rest).1 (command_request cmd rest).2,
      call_rails_command_ok e w prog cmd rest a c hpair hfit, ?_, ?_⟩
    · simp [writes_append, writes_send_fd, writes, hne]
    · simp [writes_append, writes_send_fd, writes, hne2, args_json]
  · intro hcmd hrest
    subst hcmd
    subst hrest
    have hpay : args_json (array_literal (command_request (ascii "rspec") []).1
        (command_request (ascii "rspec") []).2) =
        ascii "\x7b\"args\":[\"rspec\"],\"env\":\"ENV\"\x7d" := by decide
    have hdec : sprintf_d 30 = ascii "30" := by decide
    have hlen : (ascii "\x7b\"args\":[\"rspec\"],\"env\":\"ENV\"\x7d").length = 30 := by decide
    rw [call_rails_command_ok e w prog (ascii "rspec") [] a c hpair (by decide), hpay, hlen,
      hdec]
    refine ⟨?_, rfl⟩
    simp [Step.trace, writes_append, writes_send_fd, writes, hne2]

/-- Instance of `control_payload`: the command line `winter rspec`. -/
theorem control_payload_witness :
    (∃ w1 tr arr,
        call_rails_command sample_env sample_winter
            (([ascii "winter", ascii "rspec"].length : Nat) : Int)
            [ascii "winter", ascii "rspec"] = Step.ok w1 tr ∧
        writes 4 tr = [sprintf_d arr.length, [10], arr] ∧
        writes sample_winter.fd tr =
          [sprintf_d (ascii "\x7b\"args\":" ++ arr ++ ascii ",\"env\":\"ENV\"\x7d").length,
            [10], ascii "\x7b\"args\":" ++ arr ++ ascii ",\"env\":\"ENV\"\x7d"]) ∧
    (writes sample_winter.fd (call_rails_command sample_env sample_winter
          (([ascii "winter", ascii "rspec"].length : Nat) : Int)
          [ascii "winter", ascii "rspec"]).trace =
        [ascii "30", [10], ascii "\x7b\"args\":[\"rspec\"],\"env\":\"ENV\"\x7d"] ∧
      (ascii "\x7b\"args\":[\"rspec\"],\"env\":\"ENV\"\x7d").length = 30) :=
  ⟨(control_payload sample_env sample_winter (ascii "winter") (ascii "rspec") [] 4 5 rfl
      (by decide)).1 (by decide),
   (control_payload sample_env sample_winter (ascii "winter") (ascii "rspec") [] 4 5 rfl
      (by decide)).2 rfl rfl⟩

/-- C3 at a failing input: for `winter rails` followed by a subcommand of 8170 bytes the
array literal has 8180 bytes and fits its buffer, the control payload has 8201 bytes, and
`sprintf` runs past the end of `args_json[8192]`: the behaviour is undefined and no
control payload of the stated form is written. -/
theorem control_payload_overflow :
    call_rails_command sample_env sample_winter
        (([ascii "winter", ascii "rails", List.replicate 8170 97].length : Nat) : Int)
        [ascii "winter", ascii "rails", List.replicate 8170 97] = Step.undef ∧
    (array_literal (ascii "rails_" ++ List.replicate 8170 97) []).length = 8180 ∧
    (args_json (array_literal (ascii "rails_" ++ List.replicate 8170 97) [])).length =
      8201 := by
  have hreq : command_request (ascii "rails") [List.replicate 8170 97] =
      (ascii "rails_" ++ List.replicate 8170 97, []) := by
    simp only [command_request, if_true]
  have hc6 : (ascii "rails_").length = 6 := by decide
  have hcl : (ascii "rails_" ++ List.replicate 8170 97).length = 8176 := by
    rw [List.length_append, List.length_replicate, hc6]
  have hal : (array_literal (ascii "rails_" ++ List.replicate 8170 97) []).length = 8180 := by
    rw [← command_json_array_joined, comma_joined, command_json_array_length_nil, hcl]
  refine ⟨?_, hal, by rw [args_json_length, hal]⟩
  exact call_rails_command_undef sample_env sample_winter (ascii "winter") (ascii "rails")
    [List.replicate 8170 97] 4 5 rfl
    (by rw [hreq]; simp only [hcl, BUFSIZE]; decide)
    (by rw [hreq]; decide)
    (by rw [hreq, args_json_length, hal]; decide)

/-! ## The version handshake -/

theorem strlen_terminated (s rest : List Nat) (hs : 0 ∉ s) :
    strlen (s ++ 0 :: rest) = some s.length := by
  induction s with
  | nil => simp [strlen]
  | cons b t ih =>
    have hb : ¬ b = 0 := fun h => hs (by simp [h])
    have ht : 0 ∉ t := fun h => hs (by simp [h])
    simp [strlen, hb, ih ht]

theorem keep_first_concat (l : List Nat) (b : Nat) (hl : l ≠ []) :
    keep_first (l ++ [b]) = if trimmed b = true then keep_first l else l ++ [b] := by
  cases l with
  | nil => exact absurd rfl hl
  | cons h t =>
    by_cases hb : trimmed b = true
    · simp [keep_first, hb, List.rdropWhile_concat_pos]
    · simp [keep_first, hb, List.rdropWhile_concat_neg]

theorem trim_loop_take (s t : List Nat) : ∀ (e : Nat), e < s.length →
    (s ++ t).take (trim_loop (s ++ t) e + 1) = keep_first (s.take (e + 1)) := by
  intro e
  induction e with
  | zero =>
    intro he
    cases s with
    | nil => simp at he
    | cons h tl => simp [trim_loop, keep_first]
  | succ e ih =>
    intro he
    have hget : (s ++ t).getD (e + 1) 0 = s.get ⟨e + 1, he⟩ := by
      rw [List.getD_eq_getElem?_getD, List.getElem?_append_left he,
        List.getElem?_eq_getElem he]
      rfl
    have htake : s.take (e + 1 + 1) = s.take (e + 1) ++ [s.get ⟨e + 1, he⟩] := by
      rw [List.take_succ, List.getElem?_eq_getElem he]
      simp
    have hne : s.take (e + 1) ≠ [] := by
      cases s with
      | nil => simp at he
      | cons h tl => simp
    rw [htake, keep_first_concat _ _ hne]
    unfold trim_loop
    rw [hget]
    by_cases hb : trimmed (s.get ⟨e + 1, he⟩) = true
    · have hb2 := hb
      unfold trimmed at hb2
      rw [if_pos hb2, if_pos hb]
      exact ih (by omega)
    · have hb2 := hb
      unfold trimmed at hb2
      rw [if_neg hb2, if_neg hb, List.take_append_of_le_length (by omega), htake]

theorem rdropWhile_cons (p : Nat → Bool) (h : Nat) (t : List Nat) :
    (h :: t).rdropWhile p =
      if t.rdropWhile p = [] then (if p h = true then [] else [h]) else h :: t.rdropWhile p := by
  induction t using List.reverseRecOn with
  | nil => by_cases hp : p h = true <;> simp [List.rdropWhile, hp]
  | append_singleton l b ih =>
    rw [← List.cons_append]
    by_cases hb : p b = true
    · rw [List.rdropWhile_concat_pos _ _ _ hb, List.rdropWhile_concat_pos _ _ _ hb, ih]
    · rw [List.rdropWhile_concat_neg _ _ _ hb, List.rdropWhile_concat_neg _ _ _ hb]
      simp

theorem keep_first_eq_version (s : List Nat) :
    keep_first s = SPRING_VERSION ↔ trim_trailing s = SPRING_VERSION := by
  cases s with
  | nil => simp [keep_first, trim_trailing]
  | cons h t =>
    have hfun : (fun b => !isalnum b && !ispunct b) = trimmed := rfl
    rw [trim_trailing, hfun, rdropWhile_cons]
    by_cases hnil : t.rdropWhile trimmed = []
    · have h1 : ¬ [h] = SPRING_VERSION := by
        intro hh
        have hl := congrArg List.length hh
        have h5 : SPRING_VERSION.length = 5 := by decide
        rw [h5] at hl
        simp at hl
      have h0 : ¬ ([] : List Nat) = SPRING_VERSION := by decide
      by_cases hp : trimmed h = true <;> simp [keep_first, hnil, hp, h1, h0]
    · simp [keep_first, hnil]

/-- Result of the handshake when `buf` holds the string `s` followed by a NUL. -/
theorem verify_terminated (stack recv s rest : List Nat)
    (hbuf : version_buffer stack recv = s ++ 0 :: rest) (hs : 0 ∉ s) :
    winter_verify_server_version stack recv =
      some (decide (trim_trailing s = SPRING_VERSION)) := by
  unfold winter_verify_server_version
  simp only [hbuf, strlen_terminated s rest hs]
  cases hlen : s.length with
  | zero =>
    have hnil : s = [] := List.length_eq_zero.mp hlen
    subst hnil
    simp only [trim_trailing, List.rdropWhile_nil]
    decide
  | succ n =>
    have hlt : n < s.length := by omega
    have htk : s.take (n + 1) = s := List.take_of_length_le (by omega)
    simp only [trim_loop_take s (0 :: rest) n hlt, htk]
    congr 1
    exact decide_eq_decide.mpr (keep_first_eq_version s)

theorem trim_trailing_run (run : List Nat)
    (hrun : ∀ b ∈ run, isalnum b = false ∧ ispunct b = false) :
    trim_trailing (SPRING_VERSION ++ run) = SPRING_VERSION := by
  induction run using List.reverseRecOn with
  | nil => decide
  | append_singleton l b ih =>
    have hb := hrun b (by simp)
    have hl : ∀ x ∈ l, isalnum x = false ∧ ispunct x = false :=
      fun x hx => hrun x (by simp [hx])
    have hp : trimmed b = true := by simp [trimmed, hb.1, hb.2]
    have hfun : (fun b => !isalnum b && !ispunct b) = trimmed := rfl
    rw [trim_trailing, hfun, ← List.append_assoc, List.rdropWhile_concat_pos _ _ _ hp]
    exact ih hl

theorem version_buffer_received (stack recv s rest : List Nat)
    (hbuf : version_buffer stack recv = s ++ 0 :: rest) (hpre : s.length ≤ recv.length) :
    s = recv.take s.length := by
  have h1 : (version_buffer stack recv).take s.length = s := by rw [hbuf]; simp
  have hl : (version_buffer stack recv).length ≤ 80 := by
    simp [version_buffer, VERBUF]
  have hs80 : s.length < 80 := by
    have h2 := congrArg List.length hbuf
    simp at h2
    omega
  have h3 : (version_buffer stack recv).take s.length = recv.take s.length := by
    unfold version_buffer VERBUF
    rw [List.take_take, min_eq_left (by omega),
      List.take_append_of_le_length (by simp; omega), List.take_take, min_eq_left (by omega)]
  rw [← h3, h1]

/-- C4 (amended).  Let the bytes received be NUL-terminated in the buffer: `s` is the
received sequence up to its first zero byte, or the whole sequence when the buffer byte
after it is zero.  Then `winter_verify_server_version` returns, and it succeeds exactly
when `s`, after removal of its trailing bytes that are neither alphanumeric nor punctuation,
equals `0.0.8` byte for byte: it succeeds for `0.0.8` and a newline, fails for `0.0.7`, and
succeeds for `0.0.8` followed by any run of non-zero bytes that are neither alphanumeric
nor punctuation. -/
theorem handshake_terminated (stack recv s rest : List Nat)
    (hbuf : version_buffer stack recv = s ++ 0 :: rest) (hs : 0 ∉ s)
    (hpre : s.length ≤ recv.length) :
    s = recv.take s.length ∧
    (winter_verify_server_version stack recv = some true ↔
      trim_trailing s = SPRING_VERSION) ∧
    (winter_verify_server_version stack recv = some false ↔
      trim_trailing s ≠ SPRING_VERSION) ∧
    (s = ascii "0.0.8\n" → winter_verify_server_version stack recv = some true) ∧
    (s = ascii "0.0.7" → winter_verify_server_version stack recv = some false) ∧
    (∀ run, s = SPRING_VERSION ++ run →
      (∀ b ∈ run, isalnum b = false ∧ ispunct b = false) →
      winter_verify_server_version stack recv = some true) := by
  have hv := verify_terminated stack recv s rest hbuf hs
  refine ⟨version_buffer_received stack recv s rest hbuf hpre, ?_, ?_, ?_, ?_, ?_⟩
  · rw [hv]; simp
  · rw [hv]; simp
  · intro h
    rw [hv, h]
    decide
  · intro h
    rw [hv, h]
    decide
  · intro run h hrun
    rw [hv, h, trim_trailing_run run hrun]
    simp

/-- Instance of `handshake_terminated`: the daemon sends `0.0.8` and a newline into a
buffer that held zero bytes, and the handshake succeeds. -/
theorem handshake_terminated_witness :
    winter_verify_server_version (List.replicate 80 0) (ascii "0.0.8\n") = some true :=
  (handshake_terminated (List.replicate 80 0) (ascii "0.0.8\n") (ascii "0.0.8\n")
    (List.replicate 73 0) (by decide) (by decide) (by decide)).2.2.2.1 rfl

/-- C4 as stated fails: the seven bytes `0.0.8`, NUL, `x` do not trim to `0.0.8`, and the
handshake succeeds, whatever the buffer held before, because `strlen` stops at the NUL. -/
theorem handshake_counterexample :
    ¬ (winter_verify_server_version (List.replicate 80 0) (ascii "0.0.8" ++ [0, 120]) =
        some true ↔
      trim_trailing (ascii "0.0.8" ++ [0, 120]) = SPRING_VERSION) := by
  decide

/-- The receive buffer is not cleared before `read` (`get_pid_from_server` clears its
buffer with `bzero`, this function does not): after `0.0.8` and a newline the result
depends on what the buffer held.  With 80 bytes `x` no NUL is found inside the array, and
with a NUL only in the last place the comparison fails. -/
theorem handshake_uninitialised_buffer :
    winter_verify_server_version (List.replicate 80 120) (ascii "0.0.8\n") = none ∧
    winter_verify_server_version (List.replicate 79 120 ++ [0]) (ascii "0.0.8\n") =
      some false := by
  decide

/-! ## Paths -/

/-- C9 (amended).  For every value of the override, the control-socket path is the base
followed by `/spring` and the PID-file path is the base followed by `/spring.pid`, where
the base is the override, verbatim, whenever the variable is set (also when it is set to
the empty string, which gives `/spring` and `/spring.pid`), and `./tmp/spring` only when
the variable is not set. -/
theorem resolved_paths (getenv : Option (List Nat)) :
    winter_get_socket_path getenv = getenv.getD (ascii "./tmp/spring") ++ ascii "/spring" ∧
    winter_get_pidfile_path getenv =
      getenv.getD (ascii "./tmp/spring") ++ ascii "/spring.pid" ∧
    getenv.getD (ascii "./tmp/spring") =
      (if getenv = some [] then [] else spec_base getenv) ∧
    winter_get_socket_path (some []) = ascii "/spring" ∧
    winter_get_pidfile_path (some []) = ascii "/spring.pid" ∧
    winter_get_socket_path none = ascii "./tmp/spring/spring" ∧
    winter_get_pidfile_path none = ascii "./tmp/spring/spring.pid" := by
  refine ⟨?_, ?_, ?_, by decide, by decide, by decide, by decide⟩
  · cases getenv <;>
      simp [winter_get_socket_path, SPRING_SOCKET, ascii]
  · cases getenv <;>
      simp [winter_get_pidfile_path, SPRING_PIDFILE, ascii]
  · cases getenv with
    | none => rfl
    | some p =>
      by_cases hp : p = []
      · simp [hp]
      · simp [spec_base, hp]

/-- C9 as stated fails: with the override set to the empty string the paths are `/spring`
and `/spring.pid`, not the paths under the default base. -/
theorem resolved_paths_counterexample :
    ¬ (winter_get_socket_path (some []) = spec_base (some []) ++ ascii "/spring" ∧
       winter_get_pidfile_path (some []) = spec_base (some []) ++ ascii "/spring.pid") := by
  decide

/-! ## The liveness probe -/

/-- C10 (amended).  `winter_is_server_running` returns 0 when the PID file is absent.
When the file holds an integer `p` that fits an `int`, it returns 0 when the probe fails
with `ESRCH` and `p` otherwise; so it reports not running (0) exactly when the probe fails
with `ESRCH` or `p` is 0, and for a non-zero `p` every other outcome of the probe reports
running with that `p`. -/
theorem liveness_probe (garbage : Int) (kill : Int → Option Int) (ESRCH : Int) :
    winter_is_server_running none garbage kill ESRCH = some 0 ∧
    (∀ content p, scanf_d content = some p → -2147483648 ≤ p → p ≤ 2147483647 →
      winter_is_server_running (some content) garbage kill ESRCH =
        some (if kill p = some ESRCH then 0 else p) ∧
      (winter_is_server_running (some content) garbage kill ESRCH = some 0 ↔
        (kill p = some ESRCH ∨ p = 0)) ∧
      (p ≠ 0 → kill p ≠ some ESRCH →
        winter_is_server_running (some content) garbage kill ESRCH = some p)) := by
  constructor
  · simp only [winter_is_server_running, winter_read_pid]
    cases kill 0 with
    | none => rfl
    | some errno => by_cases h : errno = ESRCH <;> simp [h]
  · intro content p hscan hlo hhi
    have hval : winter_is_server_running (some content) garbage kill ESRCH =
        some (if kill p = some ESRCH then 0 else p) := by
      simp only [winter_is_server_running, winter_read_pid, hscan, hlo, hhi, and_self, if_true]
      cases kill p with
      | none => simp
      | some errno => by_cases h : errno = ESRCH <;> simp [h]
    refine ⟨hval, ?_, ?_⟩
    · rw [hval]
      by_cases hk : kill p = some ESRCH
      · simp [hk]
      · simp only [hk, if_false, false_or, Option.some.injEq]
    · intro hp hk
      rw [hval]
      simp [hk]

/-- Instance of `liveness_probe`: the PID file holds `4242`, the process exists. -/
theorem liveness_probe_witness :
    winter_is_server_running (some (ascii "4242\n")) 0 kill_succeeds 3 = some 4242 :=
  ((liveness_probe 0 kill_succeeds 3).2 (ascii "4242\n") 4242 (by decide) (by decide)
    (by decide)).2.2 (by decide) (by decide)

/-- C10 as stated fails: the PID file holds `0`, the probe `kill (0, 0)` succeeds, and the
function reports not running (0) although the probe did not fail with `ESRCH`. -/
theorem liveness_probe_counterexample :
    ¬ (winter_is_server_running (some (ascii "0")) 0 kill_succeeds 3 = some 0 ↔
      kill_succeeds 0 = some 3) := by
  decide

/-- A PID file that does not parse leaves `pid` with its indeterminate value, which is
then probed and returned: here the value 1234 is reported as the PID of a running
server. -/
theorem liveness_probe_unparsable :
    winter_is_server_running (some (ascii "abc")) 1234 kill_succeeds 3 = some 1234 := by
  decide

/-! ## Descriptors closed by a run -/

theorem closes_send_server_args (e : Env) (w : Winter) (command : List Nat)
    (args : Option (List Nat)) :
    closes (send_server_args e w command args).trace = [] ∧
    ∀ w1 tr, send_server_args e w command args = Step.ok w1 tr → w1.fd = w.fd := by
  unfold send_server_args connect_to_application
  cases e.socketpair with
  | none => simp [Step.trace, closes]
  | some pair =>
    obtain ⟨a, c⟩ := pair
    simp only
    split
    · simp [Step.trace, closes]
    · split
      · simp [Step.trace, closes]
      · constructor
        · simp [Step.trace, closes_append, closes_send_fd, closes]
        · intro w1 tr h
          cases h
          rfl

theorem closes_call_rails_command (e : Env) (w : Winter) (argc : Int)
    (argv : List (List Nat)) :
    closes (call_rails_command e w argc argv).trace = [] ∧
    ∀ w1 tr, call_rails_command e w argc argv = Step.ok w1 tr → w1.fd = w.fd := by
  unfold call_rails_command
  split
  · split
    · simp [Step.trace, closes]
    · split
      · exact closes_send_server_args e w _ _
      · simp [Step.trace, closes]
  · split
    · simp [Step.trace, closes]
    · split
      · exact closes_send_server_args e w _ _
      · simp [Step.trace, closes]

theorem closes_winter_run_status (e : Env) (w : Winter) (tr : List Event)
    (h : winter_run_status e w = some tr) : closes tr = [] := by
  unfold winter_run_status at h
  split at h
  · split at h <;>
    · cases h
      unfold probe_events
      cases e.pidfile <;> simp [closes_append, closes]
  · cases h

theorem call_rails_command_cases (e : Env) (w : Winter) (argc : Int)
    (argv : List (List Nat)) :
    call_rails_command e w argc argv = Step.undef ∨
    ∃ command args, call_rails_command e w argc argv = send_server_args e w command args := by
  unfold call_rails_command
  split
  · split
    · exact Or.inl rfl
    · split
      · exact Or.inr ⟨_, _, rfl⟩
      · exact Or.inl rfl
  · split
    · exact Or.inl rfl
    · split
      · exact Or.inr ⟨_, _, rfl⟩
      · exact Or.inl rfl

theorem send_server_args_no_pair (e : Env) (w : Winter) (command : List Nat)
    (args : Option (List Nat)) (hpair : e.socketpair = none) :
    send_server_args e w command args =
      Step.exit [Event.socketpair none, Event.stderr "Failed to open socketpair, existing.",
        Event.exit 0] := by
  simp [send_server_args, connect_to_application, hpair]

theorem send_server_args_pair (e : Env) (w : Winter) (command : List Nat)
    (args : Option (List Nat)) (a c : Int) (hpair : e.socketpair = some (a, c)) :
    send_server_args e w command args = Step.undef ∨
    ∃ tr, send_server_args e w command args =
        Step.ok { w with application := a, client := c }
          (Event.socketpair (some (a, c)) :: tr) ∧ closes tr = [] := by
  by_cases hfit : (args_json (command_json_array command args)).length < BUFSIZE
  · right
    rw [send_server_args_ok e w command args a c hpair hfit]
    simp only [List.append_assoc, List.singleton_append]
    refine ⟨_, rfl, ?_⟩
    simp [closes_append, closes_send_fd, closes]
  · left
    exact send_server_args_undef e w command args a c hpair (by omega)

theorem forwarded_ne (a1 : List Nat) (h : forwarded a1 = true) :
    ¬ a1 = ascii "status" ∧ ¬ a1 = ascii "help" := by
  unfold forwarded at h
  rw [decide_eq_true_eq] at h
  rcases h with h | h | h | h | h <;> subst h <;> decide

theorem create_winter_cases (e : Env) :
    create_winter e = Step.undef ∨
    (e.socket < 0 ∧ create_winter e =
      Step.exit [Event.socket e.socket, Event.stderr "Creating socket", Event.exit 0]) ∨
    (0 ≤ e.socket ∧ e.connect < 0 ∧ create_winter e =
      Step.exit [Event.socket e.socket,
        Event.connect e.socket (winter_get_socket_path e.tmp_path) e.connect,
        Event.stderr "Connecting", Event.exit 0]) ∨
    (0 ≤ e.socket ∧ 0 ≤ e.connect ∧ ∃ w, w.fd = e.socket ∧ create_winter e =
      Step.ok w [Event.socket e.socket,
        Event.connect e.socket (winter_get_socket_path e.tmp_path) e.connect]) := by
  unfold create_winter winter_init winter_setup_socket
  simp only [Option.getD_some]
  by_cases h0 : e.sun_path_size ≤ (winter_get_socket_path e.tmp_path).length
  · left
    simp [h0]
  · by_cases h1 : e.socket < 0
    · right; left
      simp [h0, h1, error, winter_destroy]
    · by_cases h2 : e.connect < 0
      · right; right; left
        refine ⟨by omega, h2, ?_⟩
        simp [h0, h1, h2, error, winter_destroy]
      · right; right; right
        refine ⟨by omega, by omega,
          { fd := e.socket, application := 0, client := 0,
            socket_path := some (winter_get_socket_path e.tmp_path),
            pidfile := some (winter_get_pidfile_path e.tmp_path) }, rfl, ?_⟩
        simp only [h0, h1, h2, if_false]

theorem closes_winter_destroy (w : Winter) :
    closes (winter_destroy w) = if 0 < w.fd then [w.fd] else [] := by
  unfold winter_destroy
  by_cases h : w.fd > 0
  · have h2 : 0 < w.fd := h
    simp [h, h2, closes]
  · have h2 : ¬ 0 < w.fd := h
    simp [h, h2, closes]

/-- C8 (amended).  In a run that forwards a command or stops at the handshake, the client
closes the control socket once, through `winter_destroy`, when its descriptor is positive,
and not at all when the descriptor is 0.  It closes nothing else: the two ends of the
application-channel pair stay open until the process ends, and on a failure of `socket`,
`connect` or `socketpair` no descriptor is closed before `exit`. -/
theorem descriptors_closed (e : Env) (argv : List (List Nat)) (tr : List Event)
    (a1 : List Nat) (hrun : main e argv = some tr) (hargc : argv.length ≠ 1)
    (ha1 : argv.get? 1 = some a1) :
    (e.socket < 0 → closes tr = []) ∧
    (0 ≤ e.socket → e.connect < 0 → Event.socket e.socket ∈ tr ∧ closes tr = []) ∧
    (0 ≤ e.socket → 0 ≤ e.connect →
      winter_verify_server_version e.stack e.recv = some false →
      closes tr = if 0 < e.socket then [e.socket] else []) ∧
    (0 ≤ e.socket → 0 ≤ e.connect →
      winter_verify_server_version e.stack e.recv = some true → forwarded a1 = true →
      e.socketpair = none → closes tr = []) ∧
    (0 ≤ e.socket → 0 ≤ e.connect →
      winter_verify_server_version e.stack e.recv = some true → forwarded a1 = true →
      ∀ a c, e.socketpair = some (a, c) →
        Event.socketpair (some (a, c)) ∈ tr ∧
        closes tr = if 0 < e.socket then [e.socket] else []) := by
  unfold main at hrun
  rw [if_neg hargc] at hrun
  rcases create_winter_cases e with hu | ⟨hs, hc⟩ | ⟨hs, hcn, hc⟩ | ⟨hs, hcn, w, hw, hc⟩
  · rw [hu] at hrun
    cases hrun
  · rw [hc] at hrun
    cases hrun
    refine ⟨fun _ => by simp [closes], ?_, ?_, ?_, ?_⟩ <;> intro h0 <;> omega
  · rw [hc] at hrun
    cases hrun
    refine ⟨fun h0 => by omega, fun _ _ => ⟨by simp, by simp [closes]⟩, ?_, ?_, ?_⟩ <;>
      intro _ h0 <;> omega
  · rw [hc] at hrun
    simp only at hrun
    cases hv : winter_verify_server_version e.stack e.recv with
    | none =>
      rw [hv] at hrun
      cases hrun
    | some b =>
      rw [hv] at hrun
      cases b with
      | false =>
        cases hrun
        refine ⟨?_, ?_, ?_, ?_, ?_⟩
        · intro h0; omega
        · intro _ h0; omega
        · intro _ _ _
          simp [closes_append, closes, error, closes_winter_destroy, hw]
        · intro _ _ h0; cases h0
        · intro _ _ h0; cases h0
      | true =>
        simp only [ha1] at hrun
        refine ⟨?_, ?_, ?_, ?_, ?_⟩
        · intro h0; omega
        · intro _ h0; omega
        · intro _ _ h0; cases h0
        · intro _ _ _ hf hp
          have hne := forwarded_ne a1 hf
          rw [if_neg hne.1, if_neg hne.2, if_neg (by simp [hf])] at hrun
          rcases call_rails_command_cases e w argv.length argv with hcu | ⟨cmd, args, hcs⟩
          · rw [hcu] at hrun
            cases hrun
          · rw [hcs, send_server_args_no_pair e w cmd args hp] at hrun
            cases hrun
            simp [closes_append, closes]
        · intro _ _ _ hf a c hp
          have hne := forwarded_ne a1 hf
          rw [if_neg hne.1, if_neg hne.2, if_neg (by simp [hf])] at hrun
          rcases call_rails_command_cases e w argv.length argv with hcu | ⟨cmd, args, hcs⟩
          · rw [hcu] at hrun
            cases hrun
          · rcases send_server_args_pair e w cmd args a c hp with hsu | ⟨tr2, hok, hcl⟩
            · rw [hcs, hsu] at hrun
              cases hrun
            · rw [hcs, hok] at hrun
              cases hrun
              constructor
              · simp
              · simp [closes_append, closes, hcl, get_application_output,
                  closes_winter_destroy, hw]

/-- Instance of `descriptors_closed`: the run of `winter rspec` against a daemon that
answers `0.0.8`; the pair (4, 5) is created and only descriptor 3 is closed. -/
theorem descriptors_closed_witness :
    Event.socketpair (some (4, 5)) ∈
      (main sample_env [ascii "winter", ascii "rspec"]).getD [] ∧
    closes ((main sample_env [ascii "winter", ascii "rspec"]).getD []) =
      if 0 < sample_env.socket then [sample_env.socket] else [] :=
  (descriptors_closed sample_env [ascii "winter", ascii "rspec"]
    ((main sample_env [ascii "winter", ascii "rspec"]).getD []) (ascii "rspec")
    (by decide) (by decide) (by decide)).2.2.2.2
    (by decide) (by decide) (by decide) (by decide) 4 5 rfl

/-- C8 as stated fails: in the run of `winter rspec` the pair (4, 5) is created and
neither end is closed before the process returns from `main`. -/
theorem descriptors_closed_counterexample :
    Event.socketpair (some (4, 5)) ∈
      (main sample_env [ascii "winter", ascii "rspec"]).getD [] ∧
    ¬ (4 ∈ closes ((main sample_env [ascii "winter", ascii "rspec"]).getD []) ∧
       5 ∈ closes ((main sample_env [ascii "winter", ascii "rspec"]).getD [])) := by
  decide

/-- With the control socket on descriptor 0 the guard `winter->fd > 0` of `winter_destroy`
skips `close`: the run of `winter rspec` closes nothing. -/
theorem descriptor_zero_not_closed :
    (main zero_fd_env [ascii "winter", ascii "rspec"]).map closes = some [] := by
  decide

end WinterClient
